import Mathlib

/-!
Verification development for the `jiracli` command-line dispatch layer
(`src/jiracli/cli.go`).  The two stateful subsystems are shallowly embedded:

* the re-authentication post callback installed on the HTTP client in
  `Register` (cli.go lines 95-114), and
* the edit/submit retry loop `EditLoop` (cli.go lines 265-367) together with
  its helper `editFile` (cli.go lines 202-263).

External collaborators (the YAML codec, the template renderer, the editor
subprocess, the survey confirmation prompt, the submit callback, the login
command) are modelled as oracle inputs; the control flow connecting them is
translated statement by statement from the Go source.
-/

namespace JiraCli

/-! ## Re-authentication interceptor (cli.go 95-114) -/

/-- Go `http.Header.Get`: the first value recorded for the key, or the empty
string when the key is absent.  The source reads exactly one header,
`X-Ausername` (cli.go line 97). -/
def headerGet (headers : List (String × String)) (key : String) : String :=
  match headers.find? (fun kv => kv.1 = key) with
  | some kv => kv.2
  | none => ""

/-- An HTTP response as the hook observes it: its headers plus an opaque body
tag used to tell distinct responses apart. -/
structure HttpResponse where
  headers : List (String × String)
  body : String
deriving DecidableEq, Repr

/-- Observable actions the post callback performs, each recording the value of
the process-wide quiet flag at the moment the action runs. -/
inductive HookAct where
  | loginCall (quietDuring : Bool)
  | replayCall (quietDuring : Bool)
deriving DecidableEq, Repr

deriving instance DecidableEq for Except

/-- The outcome of one run of the post callback: the value returned to the
caller of the original request, the quiet flag after the callback has exited,
and the trace of actions it performed. -/
structure HookResult where
  result : Except String HttpResponse
  quietAfter : Bool
  acts : List HookAct
deriving DecidableEq, Repr

/-- Embeds the response post callback installed with `WithPostCallback` in
`Register` (cli.go 95-114).  `quiet0` is `globals.Quiet.Value` on entry,
`loginErr` the outcome of `app.Parse` running the login command, and
`replayResult` the outcome of `o.Do(req)` re-sending the original request.
The Go code reads `resp.Header.Get("X-Ausername")`; when it is empty or
`"anonymous"` it saves the quiet flag, forces it to true, registers a deferred
restore, runs the login command with its result not inspected, and returns the
replayed request's outcome; the deferred restore runs on function exit.
Otherwise the original response is returned unchanged. -/
def postCallback (quiet0 : Bool) (resp : HttpResponse) (loginErr : Option String)
    (replayResult : Except String HttpResponse) : HookResult :=
  let authUser := headerGet resp.headers "X-Ausername"
  if authUser = "" ∨ authUser = "anonymous" then
    -- cli.go 101-103: defer restoring the saved quiet value on exit
    let saved := quiet0
    -- cli.go 104: globals.Quiet.Value = true
    let quietDuring := true
    -- cli.go 107: app.Parse with the login command; the returned error is dropped
    let _ := loginErr
    -- cli.go 110: return o.Do(req); afterwards the deferred restore fires
    { result := replayResult
      quietAfter := saved
      acts := [.loginCall quietDuring, .replayCall quietDuring] }
  else
    -- cli.go 112: return resp, nil
    { result := .ok resp, quietAfter := quiet0, acts := [] }

end JiraCli

namespace JiraCli

/-- C3: a response whose identity header carries a non-empty value other than
"anonymous" is returned unchanged, with no login and no replay; a response
whose identity header is missing (Get returns "") or equals "anonymous"
triggers the login command and the replay, and the caller receives exactly the
replayed request's outcome, never the original response object. -/
theorem reauth_header_dispatch (quiet0 : Bool) (resp : HttpResponse)
    (loginErr : Option String) (replayResult : Except String HttpResponse) :
    (headerGet resp.headers "X-Ausername" ≠ "" ∧
        headerGet resp.headers "X-Ausername" ≠ "anonymous" →
      postCallback quiet0 resp loginErr replayResult =
        { result := .ok resp, quietAfter := quiet0, acts := [] }) ∧
    (headerGet resp.headers "X-Ausername" = "" ∨
        headerGet resp.headers "X-Ausername" = "anonymous" →
      (postCallback quiet0 resp loginErr replayResult).result = replayResult ∧
      (postCallback quiet0 resp loginErr replayResult).acts =
        [.loginCall true, .replayCall true]) := by
  constructor
  · intro h
    simp [postCallback, h.1, h.2]
  · intro h
    simp [postCallback, h]

/-- Witness for `reauth_header_dispatch` at concrete responses. -/
theorem reauth_header_dispatch_witness :
    (postCallback false ⟨[("X-Ausername", "alice")], "orig"⟩ none (.ok ⟨[], "r"⟩) =
      { result := .ok ⟨[("X-Ausername", "alice")], "orig"⟩, quietAfter := false,
        acts := [] }) ∧
    ((postCallback false ⟨[], "orig"⟩ none (.ok ⟨[], "r"⟩)).result = .ok ⟨[], "r"⟩ ∧
      (postCallback false ⟨[], "orig"⟩ none (.ok ⟨[], "r"⟩)).acts =
        [.loginCall true, .replayCall true]) := by
  refine ⟨(reauth_header_dispatch false ⟨[("X-Ausername", "alice")], "orig"⟩ none
      (.ok ⟨[], "r"⟩)).1 (by constructor <;> decide), ?_⟩
  exact (reauth_header_dispatch false ⟨[], "orig"⟩ none (.ok ⟨[], "r"⟩)).2
    (by left; decide)

/-- C2 counterexample: on an anonymous response whose login attempt fails, the
code does not return the login error and does not skip the replay: it returns
the replayed request's outcome and the replay action is in the trace. -/
theorem reauth_login_error_cex :
    (postCallback false ⟨[("X-Ausername", "anonymous")], "orig"⟩ (some "denied")
        (.ok ⟨[], "replayed"⟩)).result ≠ .error "denied" ∧
    HookAct.replayCall true ∈
      (postCallback false ⟨[("X-Ausername", "anonymous")], "orig"⟩ (some "denied")
        (.ok ⟨[], "replayed"⟩)).acts := by
  decide

/-- C2 amended: the error of the login command run after an unauthenticated
response is discarded; the interceptor replays the original request regardless
and returns the replay's outcome, which does not depend on the login error at
all. -/
theorem reauth_login_error_ignored (quiet0 : Bool) (resp : HttpResponse)
    (e : String) (replayResult : Except String HttpResponse)
    (h : headerGet resp.headers "X-Ausername" = "" ∨
        headerGet resp.headers "X-Ausername" = "anonymous") :
    (postCallback quiet0 resp (some e) replayResult).result = replayResult ∧
    HookAct.replayCall true ∈ (postCallback quiet0 resp (some e) replayResult).acts ∧
    postCallback quiet0 resp (some e) replayResult =
      postCallback quiet0 resp none replayResult := by
  refine ⟨?_, ?_, ?_⟩ <;> simp [postCallback, h]

/-- Witness for `reauth_login_error_ignored` at a concrete anonymous
response. -/
theorem reauth_login_error_ignored_witness :
    (postCallback true ⟨[("X-Ausername", "anonymous")], "o"⟩ (some "denied")
        (.error "network")).result = .error "network" ∧
    HookAct.replayCall true ∈
      (postCallback true ⟨[("X-Ausername", "anonymous")], "o"⟩ (some "denied")
        (.error "network")).acts ∧
    postCallback true ⟨[("X-Ausername", "anonymous")], "o"⟩ (some "denied")
        (.error "network") =
      postCallback true ⟨[("X-Ausername", "anonymous")], "o"⟩ none
        (.error "network") :=
  reauth_login_error_ignored true ⟨[("X-Ausername", "anonymous")], "o"⟩ "denied"
    (.error "network") (by right; decide)

/-- C5: the quiet flag is restored to its saved entry value on every exit path
of the callback, whatever the login and replay outcomes; both the login and
the replay run with the quiet flag forced to true; and on the authenticated
path the trace is empty so the flag is never touched. -/
theorem reauth_quiet_scoped (quiet0 : Bool) (resp : HttpResponse)
    (loginErr : Option String) (replayResult : Except String HttpResponse) :
    (postCallback quiet0 resp loginErr replayResult).quietAfter = quiet0 ∧
    (∀ b, HookAct.loginCall b ∈ (postCallback quiet0 resp loginErr replayResult).acts →
      b = true) ∧
    (∀ b, HookAct.replayCall b ∈ (postCallback quiet0 resp loginErr replayResult).acts →
      b = true) := by
  unfold postCallback
  by_cases h : headerGet resp.headers "X-Ausername" = "" ∨
      headerGet resp.headers "X-Ausername" = "anonymous"
  · simp [h]
  · simp [h]

/-- Witness for `reauth_quiet_scoped`: a failing login and a failing replay on
an anonymous response still restore the quiet flag. -/
theorem reauth_quiet_scoped_witness :
    (postCallback false ⟨[], "o"⟩ (some "denied") (.error "boom")).quietAfter = false ∧
    (∀ b, HookAct.loginCall b ∈
        (postCallback false ⟨[], "o"⟩ (some "denied") (.error "boom")).acts → b = true) ∧
    (∀ b, HookAct.replayCall b ∈
        (postCallback false ⟨[], "o"⟩ (some "denied") (.error "boom")).acts → b = true) :=
  reauth_quiet_scoped false ⟨[], "o"⟩ (some "denied") (.error "boom")

/-! ## editFile: editor resolution, backup handling, and the diff (cli.go 202-263) -/

/-- The subset of the Go `CommonOptions` struct that `editFile` and `EditLoop`
read: `Editor.Value`, `SkipEditing.Value` and `Template.Value`. -/
structure CommonOptions where
  editor : String
  skipEditing : Bool
  template : String
deriving DecidableEq, Repr

/-- The editor-resolution loop of `editFile` (cli.go 203-209): scan the
candidate list and keep the first non-empty entry; the running variable starts
out as the empty string. -/
def resolveEditor : List String → String
  | [] => ""
  | ed :: rest => if ed ≠ "" then ed else resolveEditor rest

/-- The 1024-byte comparison loop of `editFile` (cli.go 244-256), modelling
`os.File` reads on regular files: a read returns the next
`min 1024 remaining` bytes and reports `io.EOF` exactly when no bytes remain.
Each iteration reads one chunk from each file, short-circuits to `true` when
the byte counts or the chunk contents differ, and exits with `false` once the
edited file's read hit end of file. -/
def diffChunks (old new : List Nat) : Bool :=
  if (old.take 1024).length ≠ (new.take 1024).length then true
  else if old.take 1024 ≠ new.take 1024 then true
  else if h : (new.take 1024).length = 0 then false
  else diffChunks (old.drop 1024) (new.drop 1024)
termination_by new.length
decreasing_by
  simp only [List.length_take, List.length_drop] at *
  omega

/-- The DIFF step of `editFile` (cli.go 233-262) on the contents of the backup
and the edited file: unequal sizes report a change immediately (cli.go 241),
equal sizes are compared chunk by chunk. -/
def editFileDiff (old new : List Nat) : Bool :=
  if old.length ≠ new.length then true else diffChunks old new

/-- The per-call environment of `editFile`: the two environment variables it
reads and the outcomes of its filesystem and subprocess operations. -/
structure EditFileEnv where
  jiraEditor : String
  editorVar : String
  copyErr : Option String
  runErr : Option String
  openOldErr : Option String
  openNewErr : Option String
  statOldErr : Option String
  statNewErr : Option String
  oldBytes : List Nat
  newBytes : List Nat
deriving DecidableEq, Repr

/-- Filesystem and subprocess events performed by `editFile`, in order. -/
inductive FsEv where
  | copyFile (src dst : String) (ok : Bool)
  | runEditor (editor file : String)
  | removeFile (path : String)
deriving DecidableEq, Repr

/-- Embeds `editFile` (cli.go 202-263).  It resolves the editor, returns
immediately when the skip-editing option is set, copies the file to a sibling
`.orig` backup, registers a deferred removal of the backup, runs the editor
subprocess, and diffs the backup against the edited file; every return after
the backup copy succeeded triggers the deferred removal. -/
def editFile (o : CommonOptions) (env : EditFileEnv) (fileName : String) :
    (Bool × Option String) × List FsEv :=
  -- cli.go 203-209: resolve the editor command
  let editor := resolveEditor [o.editor, env.jiraEditor, env.editorVar, "vim"]
  -- cli.go 211-213: the skip-editing option short-circuits before any file work
  if o.skipEditing then ((false, none), [])
  else
    -- cli.go 215-218: back up the file to the sibling .orig path
    let orig := fileName ++ ".orig"
    match env.copyErr with
    | some e => ((false, some e), [.copyFile fileName orig false])
    | none =>
      -- cli.go 220-222: deferred removal of the backup, fires on every return below
      -- cli.go 224-231: run the editor as a foreground subprocess
      match env.runErr with
      | some e => ((false, some e),
          [.copyFile fileName orig true, .runEditor editor fileName, .removeFile orig])
      | none =>
        -- cli.go 233-262: open and stat both files, then compare
        let diffRes : Bool × Option String :=
          match env.openOldErr with
          | some e => (false, some e)
          | none =>
            match env.openNewErr with
            | some e => (false, some e)
            | none =>
              match env.statOldErr with
              | some e => (false, some e)
              | none =>
                match env.statNewErr with
                | some e => (false, some e)
                | none => (editFileDiff env.oldBytes env.newBytes, none)
        (diffRes, [.copyFile fileName orig true, .runEditor editor fileName, .removeFile orig])

/-- Two lists agreeing on their first `k` elements and on the rest are
equal. -/
theorem take_drop_ext (k : Nat) (a b : List Nat) (ht : a.take k = b.take k)
    (hd : a.drop k = b.drop k) : a = b := by
  rw [← List.take_append_drop k a, ← List.take_append_drop k b, ht, hd]

/-- The chunk loop on equal-size files returns `false` exactly when the
contents coincide. -/
theorem diffChunks_eq_false_iff :
    ∀ (n : Nat) (old new : List Nat), new.length ≤ n → old.length = new.length →
      (diffChunks old new = false ↔ old = new) := by
  intro n
  induction n with
  | zero =>
    intro old new hle hlen
    have hnew : new = [] := List.length_eq_zero.mp (Nat.le_zero.mp hle)
    have hold : old = [] := List.length_eq_zero.mp (by omega)
    subst hnew
    subst hold
    rw [diffChunks]
    simp
  | succ n ih =>
    intro old new hle hlen
    rw [diffChunks]
    have h1 : (old.take 1024).length = (new.take 1024).length := by
      simp [List.length_take, hlen]
    by_cases h2 : old.take 1024 = new.take 1024
    · by_cases h3 : (new.take 1024).length = 0
      · have hnew : new = [] := by
          rw [List.length_take] at h3
          exact List.length_eq_zero.mp (by omega)
        have hold : old = [] := List.length_eq_zero.mp (by rw [hlen, hnew]; rfl)
        simp [h1, h2, h3, hnew, hold]
      · have hrec := ih (old.drop 1024) (new.drop 1024)
          (by simp only [List.length_drop]; omega)
          (by simp only [List.length_drop, hlen])
        simp only [h1, ne_eq, not_true_eq_false, if_false, h2, dif_neg h3]
        rw [hrec]
        constructor
        · intro hd
          exact take_drop_ext 1024 old new h2 hd
        · intro he
          rw [he]
    · have hne : old ≠ new := by
        intro he
        rw [he] at h2
        exact h2 rfl
      simp [h1, h2, hne]

/-- C4: the DIFF step reports `changed = true` for files of unequal size
regardless of content; for equal sizes it reports `true` exactly when some
byte differs; and it reports `false` exactly when the two byte sequences are
equal (all chunks matched and both files ended together). -/
theorem editFileDiff_spec (old new : List Nat) :
    (old.length ≠ new.length → editFileDiff old new = true) ∧
    (old.length = new.length → (editFileDiff old new = true ↔ old ≠ new)) ∧
    (editFileDiff old new = false ↔ old = new) := by
  refine ⟨?_, ?_, ?_⟩
  · intro h
    simp [editFileDiff, h]
  · intro h
    have hiff := diffChunks_eq_false_iff new.length old new le_rfl h
    unfold editFileDiff
    rw [if_neg (by simpa using h)]
    constructor
    · intro ht he
      rw [hiff.mpr he] at ht
      cases ht
    · intro hne
      cases hd : diffChunks old new with
      | true => rfl
      | false => exact absurd (hiff.mp hd) hne
  · by_cases h : old.length = new.length
    · have hiff := diffChunks_eq_false_iff new.length old new le_rfl h
      unfold editFileDiff
      rw [if_neg (by simpa using h)]
      exact hiff
    · constructor
      · intro hf
        unfold editFileDiff at hf
        rw [if_pos (by simpa using h)] at hf
        cases hf
      · intro he
        rw [he] at h
        exact absurd rfl h

/-- Witness for `editFileDiff_spec` on concrete byte lists: unequal sizes, an
equal-size pair differing mid-list, and an identical pair. -/
theorem editFileDiff_spec_witness :
    ([0, 1].length ≠ [0].length → editFileDiff [0, 1] [0] = true) ∧
    ([0, 1, 2].length = [0, 9, 2].length →
      (editFileDiff [0, 1, 2] [0, 9, 2] = true ↔ [0, 1, 2] ≠ [0, 9, 2])) ∧
    (editFileDiff [0, 1, 2] [0, 1, 2] = false ↔ [0, 1, 2] = [0, 1, 2]) :=
  ⟨(editFileDiff_spec [0, 1] [0]).1,
   (editFileDiff_spec [0, 1, 2] [0, 9, 2]).2.1,
   (editFileDiff_spec [0, 1, 2] [0, 1, 2]).2.2⟩

/-- C8: the editor command is the first non-empty candidate among, in order,
the per-command option, the JIRA_EDITOR variable, the EDITOR variable, and
the built-in "vim"; a later candidate wins only when all earlier ones are
empty. -/
theorem editor_priority (opt jira ed : String) :
    (opt ≠ "" → resolveEditor [opt, jira, ed, "vim"] = opt) ∧
    (opt = "" → jira ≠ "" → resolveEditor [opt, jira, ed, "vim"] = jira) ∧
    (opt = "" → jira = "" → ed ≠ "" → resolveEditor [opt, jira, ed, "vim"] = ed) ∧
    (opt = "" → jira = "" → ed = "" → resolveEditor [opt, jira, ed, "vim"] = "vim") := by
  refine ⟨?_, ?_, ?_, ?_⟩
  · intro h
    simp [resolveEditor, h]
  · intro h1 h2
    simp [resolveEditor, h1, h2]
  · intro h1 h2 h3
    simp [resolveEditor, h1, h2, h3]
  · intro h1 h2 h3
    simp [resolveEditor, h1, h2, h3]

/-- Witness for `editor_priority` at concrete candidate strings. -/
theorem editor_priority_witness :
    ("nano" ≠ "" → resolveEditor ["nano", "code", "vi", "vim"] = "nano") ∧
    ("" ≠ "" → resolveEditor ["", "", "", "vim"] = "") ∧
    ("" = "" → "" = "" → "" ≠ "" → resolveEditor ["", "", "", "vim"] = "") ∧
    ("" = "" → "" = "" → "" = "" → resolveEditor ["", "", "", "vim"] = "vim") :=
  ⟨(editor_priority "nano" "code" "vi").1,
   fun h => absurd rfl h,
   fun _ _ h => absurd rfl h,
   (editor_priority "" "" "").2.2.2⟩

/-- C9: whenever `editFile` runs without the skip-editing option, a successful
backup copy is the first recorded event and the backup's removal is the last,
on every exit path (editor failure, diff failure or success); when the backup
copy itself fails, nothing is ever removed. -/
theorem editFile_backup_removed (o : CommonOptions) (env : EditFileEnv)
    (fileName : String) (hskip : o.skipEditing = false) :
    (env.copyErr = none →
      (editFile o env fileName).2.head? =
          some (.copyFile fileName (fileName ++ ".orig") true) ∧
        (editFile o env fileName).2.getLast? =
          some (.removeFile (fileName ++ ".orig"))) ∧
    (∀ e, env.copyErr = some e →
      ∀ p, FsEv.removeFile p ∉ (editFile o env fileName).2) := by
  constructor
  · intro hcopy
    cases hrun : env.runErr with
    | some e => simp [editFile, hskip, hcopy, hrun]
    | none => simp [editFile, hskip, hcopy, hrun]
  · intro e hcopy p
    simp [editFile, hskip, hcopy]

/-- Witness for `editFile_backup_removed`: a run whose editor subprocess
fails, and one whose backup copy fails. -/
theorem editFile_backup_removed_witness :
    (((none : Option String) = none →
      (editFile ⟨"", false, "t"⟩ ⟨"", "", none, some "editor crashed", none, none,
          none, none, [], []⟩ "f.yml").2.head? =
          some (.copyFile "f.yml" ("f.yml" ++ ".orig") true) ∧
        (editFile ⟨"", false, "t"⟩ ⟨"", "", none, some "editor crashed", none, none,
          none, none, [], []⟩ "f.yml").2.getLast? =
          some (.removeFile ("f.yml" ++ ".orig"))) ∧
      (∀ e, (none : Option String) = some e →
        ∀ p, FsEv.removeFile p ∉
          (editFile ⟨"", false, "t"⟩ ⟨"", "", none, some "editor crashed", none, none,
            none, none, [], []⟩ "f.yml").2)) ∧
    (∀ e, (some "no space" : Option String) = some e →
      ∀ p, FsEv.removeFile p ∉
        (editFile ⟨"", false, "t"⟩ ⟨"", "", some "no space", none, none, none,
          none, none, [], []⟩ "f.yml").2) :=
  ⟨editFile_backup_removed ⟨"", false, "t"⟩ ⟨"", "", none, some "editor crashed",
      none, none, none, none, [], []⟩ "f.yml" rfl,
   (editFile_backup_removed ⟨"", false, "t"⟩ ⟨"", "", some "no space", none, none,
      none, none, none, [], []⟩ "f.yml" rfl).2⟩

/-! ## EditLoop (cli.go 265-367)

The loop is embedded as a state machine over the mutable output value
(the Document).  `Doc` is the type of the output struct.  The external
collaborators are oracles: each loop iteration consumes one `IterEnv`
recording the outcomes the environment produces during that iteration, and
the run emits a trace of observable events. -/

/-- The confirm closure of `EditLoop` (cli.go 271-278): a survey.Confirm
prompt whose `Default` field is true, so the absence of an explicit answer
(`none`) yields true. -/
def confirm (ans : Option Bool) : Bool := ans.getD true

/-- The environment of one iteration of the retry loop: the outcomes of
`editFile`, of the file read, of the pristine-copy restore, of the three YAML
codec calls, of the submit callback, and the user's answer (`none` = no
explicit answer) to each confirmation that may be shown.  `populate` is
`yaml.Unmarshal(fixedYAML, output)`: it consumes the document it is applied to
and yields the (possibly partially) written document and an error;
`submit` observes the current document. -/
structure IterEnv (Doc : Type) where
  editChanges : Bool
  editErr : Option String
  editAgainAns : Option Bool
  submitAnywayAns : Option Bool
  readErr : Option String
  restoreErr : Option String
  rawErr : Option String
  rawAns : Option Bool
  marshalErr : Option String
  marshalAns : Option Bool
  populate : Doc → Doc × Option String
  populateAns : Option Bool
  submit : Doc → Option String
  submitAns : Option Bool

/-- Observable events of an `EditLoop` run, in order. -/
inductive LoopEv (Doc : Type) where
  | render
  | editCall
  | prompt (msg : String) (ans : Bool)
  | restore
  | populateCall (docBefore : Doc)
  | submitCall (doc : Doc)
deriving DecidableEq, Repr

/-- How a run of `EditLoop` ends: a normal return carrying the Go error value
and the final document, the typed exit signal raised by `panic` with an
`Exit` code, or exhaustion of the supplied iteration environments. -/
inductive LoopOutcome (Doc : Type) where
  | ret (err : Option String) (doc : Doc)
  | exited (code : Nat)
  | fuelOut (doc : Doc)
deriving DecidableEq, Repr

/-- The effect of one loop iteration: either re-enter the loop with the
current document value, or stop the whole run. -/
inductive IterStep (Doc : Type) where
  | next (doc : Doc)
  | stop (o : LoopOutcome Doc)
deriving DecidableEq, Repr

/-- The tail of a loop iteration after the EDIT phase (cli.go 305-363): read
the file, restore the output from the pristine copy, parse the raw tree,
fix it up and re-serialize, populate the output, and submit.  `dup` is the
pristine copy, `doc` the current document. -/
def parsePhase {Doc : Type} (dup doc : Doc) (env : IterEnv Doc) :
    IterStep Doc × List (LoopEv Doc) :=
  -- cli.go 306-309: ioutil.ReadFile; an error returns from EditLoop
  match env.readErr with
  | some e => (.stop (.ret (some e) doc), [])
  | none =>
    -- cli.go 318-322: copier.Copy(output, dup); an error returns from EditLoop
    match env.restoreErr with
    | some e => (.stop (.ret (some e) doc), [.restore])
    | none =>
      -- the output now equals the pristine copy dup
      -- cli.go 331-338: yaml.Unmarshal(data, raw)
      match env.rawErr with
      | some _ =>
        let a := confirm env.rawAns
        ((if a then .next dup else .stop (.exited 1)),
          [.restore, .prompt "Invalid YAML syntax, edit again?" a])
      | none =>
        -- cli.go 339-347: yamlFixup then yaml.Marshal(raw)
        match env.marshalErr with
        | some _ =>
          let a := confirm env.marshalAns
          ((if a then .next dup else .stop (.exited 1)),
            [.restore, .prompt "Invalid YAML syntax, edit again?" a])
        | none =>
          -- cli.go 349-355: yaml.Unmarshal(fixedYAML, output)
          match env.populate dup with
          | (d1, some _) =>
            let a := confirm env.populateAns
            ((if a then .next d1 else .stop (.exited 1)),
              [.restore, .populateCall dup, .prompt "Invalid YAML syntax, edit again?" a])
          | (d1, none) =>
            -- cli.go 356-363: submit()
            match env.submit d1 with
            | some _ =>
              let a := confirm env.submitAns
              ((if a then .next d1 else .stop (.exited 1)),
                [.restore, .populateCall dup, .submitCall d1,
                  .prompt "Jira reported an error, edit again?" a])
            | none =>
              -- cli.go 364: break; EditLoop then returns nil
              (.stop (.ret none d1), [.restore, .populateCall dup, .submitCall d1])

/-- One iteration of the retry loop (cli.go 289-365).  The EDIT phase
(cli.go 290-304) is skipped entirely when the skip-editing option is set;
otherwise `editFile` runs, an editor failure prompts for retry, and an
unchanged file prompts before submitting anyway. -/
def editIter {Doc : Type} (skipEditing : Bool) (dup doc : Doc) (env : IterEnv Doc) :
    IterStep Doc × List (LoopEv Doc) :=
  if skipEditing then parsePhase dup doc env
  else
    match env.editErr with
    | some _ =>
      -- cli.go 292-298: editor error: log, confirm, continue or panic Exit 1
      let a := confirm env.editAgainAns
      ((if a then .next doc else .stop (.exited 1)),
        [.editCall, .prompt "Editor reported an error, edit again?" a])
    | none =>
      if env.editChanges then
        let r := parsePhase dup doc env
        (r.1, .editCall :: r.2)
      else
        -- cli.go 299-303: no changes: confirm, proceed or panic Exit 1
        let a := confirm env.submitAnywayAns
        if a then
          let r := parsePhase dup doc env
          (r.1, .editCall :: .prompt "No changes detected, submit anyway?" a :: r.2)
        else
          (.stop (.exited 1),
            [.editCall, .prompt "No changes detected, submit anyway?" a])

/-- The retry loop itself (cli.go 289-365): run iterations until one stops
the run or the iteration environments run out. -/
def editLoopGo {Doc : Type} (skipEditing : Bool) (dup : Doc) :
    Doc → List (IterEnv Doc) → LoopOutcome Doc × List (LoopEv Doc)
  | doc, [] => (.fuelOut doc, [])
  | doc, env :: rest =>
    match editIter skipEditing dup doc env with
    | (.stop o, tr) => (o, tr)
    | (.next d, tr) =>
      let r := editLoopGo skipEditing dup d rest
      (r.1, tr ++ r.2)

/-- The outcomes of the two fallible steps `EditLoop` performs before the
loop: `tmpTemplate` (the initial render) and `copier.Copy` (taking the
pristine copy). -/
structure LoopSetup where
  renderErr : Option String
  snapErr : Option String
deriving DecidableEq, Repr

/-- Embeds `EditLoop` (cli.go 265-367): render the template once into the
temporary file, take the pristine deep copy of the output, then run the
retry loop with that copy. -/
def EditLoop {Doc : Type} (setup : LoopSetup) (opts : CommonOptions) (output : Doc)
    (envs : List (IterEnv Doc)) : LoopOutcome Doc × List (LoopEv Doc) :=
  -- cli.go 266-269: tmpTemplate; an error is returned before anything else
  match setup.renderErr with
  | some e => (.ret (some e) output, [])
  | none =>
    -- cli.go 283-287: dup := deep copy of output
    match setup.snapErr with
    | some e => (.ret (some e) output, [.render])
    | none =>
      let r := editLoopGo opts.skipEditing output output envs
      (r.1, .render :: r.2)

/-- The documents the submit callback observed during a run, in call order. -/
def submitCalls {Doc : Type} : List (LoopEv Doc) → List Doc :=
  List.filterMap fun ev =>
    match ev with
    | .submitCall d => some d
    | _ => none

/-- Whether an event is the initial template render. -/
def isRender {Doc : Type} : LoopEv Doc → Bool
  | .render => true
  | _ => false

/-- How many times the initial template render happened during a run. -/
def renderCount {Doc : Type} (tr : List (LoopEv Doc)) : Nat :=
  (tr.filter isRender).length

/-- The user explicitly answered "no" to at least one confirmation of the
iteration. -/
def explicitNo {Doc : Type} (env : IterEnv Doc) : Prop :=
  env.editAgainAns = some false ∨ env.submitAnywayAns = some false ∨
  env.rawAns = some false ∨ env.marshalAns = some false ∨
  env.populateAns = some false ∨ env.submitAns = some false

/-- An iteration environment that reaches the SUBMIT step: the EDIT phase
passes (skipped, or no editor error and either a detected change or a
confirmed submit-anyway), and the read, restore, raw parse and re-serialize
steps all succeed. -/
def cleanAttempt {Doc : Type} (skip : Bool) (env : IterEnv Doc) : Prop :=
  (skip = false → env.editErr = none ∧ env.editChanges = true) ∧
  env.readErr = none ∧ env.restoreErr = none ∧ env.rawErr = none ∧
  env.marshalErr = none

/-- Every populate event of the parse phase carries the pristine copy. -/
theorem parsePhase_populateCall {Doc : Type} (dup doc d : Doc) (env : IterEnv Doc) :
    LoopEv.populateCall d ∈ (parsePhase dup doc env).2 → d = dup := by
  intro h
  unfold parsePhase at h
  cases h1 : env.readErr with
  | some e => rw [h1] at h; simp at h
  | none =>
  rw [h1] at h
  cases h2 : env.restoreErr with
  | some e => rw [h2] at h; simp at h
  | none =>
  rw [h2] at h
  cases h3 : env.rawErr with
  | some e => rw [h3] at h; simp at h
  | none =>
  rw [h3] at h
  cases h4 : env.marshalErr with
  | some e => rw [h4] at h; simp at h
  | none =>
  rw [h4] at h
  rcases h5 : env.populate dup with ⟨d1, perr⟩
  rw [h5] at h
  cases perr with
  | some e =>
    simp at h
    first
    | exact h
    | exact h.symm
  | none =>
    cases h6 : env.submit d1 with
    | some e =>
      simp [h6] at h
      first
      | exact h
      | exact h.symm
    | none =>
      simp [h6] at h
      first
      | exact h
      | exact h.symm

/-- Every submit event of the parse phase carries the document obtained by
populating the pristine copy with the current attempt's bytes, with no
populate error. -/
theorem parsePhase_submitCall {Doc : Type} (dup doc d : Doc) (env : IterEnv Doc) :
    LoopEv.submitCall d ∈ (parsePhase dup doc env).2 → env.populate dup = (d, none) := by
  intro h
  unfold parsePhase at h
  cases h1 : env.readErr with
  | some e => rw [h1] at h; simp at h
  | none =>
  rw [h1] at h
  cases h2 : env.restoreErr with
  | some e => rw [h2] at h; simp at h
  | none =>
  rw [h2] at h
  cases h3 : env.rawErr with
  | some e => rw [h3] at h; simp at h
  | none =>
  rw [h3] at h
  cases h4 : env.marshalErr with
  | some e => rw [h4] at h; simp at h
  | none =>
  rw [h4] at h
  rcases h5 : env.populate dup with ⟨d1, perr⟩
  rw [h5] at h
  cases perr with
  | some e => simp at h
  | none =>
    cases h6 : env.submit d1 with
    | some e =>
      simp [h6] at h
      simp [h]
    | none =>
      simp [h6] at h
      simp [h]

/-- The parse phase never launches the editor and never renders. -/
theorem parsePhase_no_edit_no_render {Doc : Type} (dup doc : Doc) (env : IterEnv Doc) :
    LoopEv.editCall ∉ (parsePhase dup doc env).2 ∧
    LoopEv.render ∉ (parsePhase dup doc env).2 := by
  unfold parsePhase
  cases h1 : env.readErr with
  | some e => simp
  | none =>
  cases h2 : env.restoreErr with
  | some e => simp
  | none =>
  cases h3 : env.rawErr with
  | some e => simp
  | none =>
  cases h4 : env.marshalErr with
  | some e => simp
  | none =>
  rcases h5 : env.populate dup with ⟨d1, perr⟩
  cases perr with
  | some e => simp
  | none =>
    cases h6 : env.submit d1 <;> simp [h6]

/-- The only confirmations the parse phase can show are the invalid-YAML and
the submit-failure ones. -/
theorem parsePhase_prompt {Doc : Type} (dup doc : Doc) (env : IterEnv Doc)
    (m : String) (a : Bool) :
    LoopEv.prompt m a ∈ (parsePhase dup doc env).2 →
      m = "Invalid YAML syntax, edit again?" ∨
      m = "Jira reported an error, edit again?" := by
  intro h
  unfold parsePhase at h
  cases h1 : env.readErr with
  | some e => rw [h1] at h; simp at h
  | none =>
  rw [h1] at h
  cases h2 : env.restoreErr with
  | some e => rw [h2] at h; simp at h
  | none =>
  rw [h2] at h
  cases h3 : env.rawErr with
  | some e =>
    rw [h3] at h
    simp at h
    first
    | exact Or.inl h.1
    | exact Or.inl h.1.symm
  | none =>
  rw [h3] at h
  cases h4 : env.marshalErr with
  | some e =>
    rw [h4] at h
    simp at h
    first
    | exact Or.inl h.1
    | exact Or.inl h.1.symm
  | none =>
  rw [h4] at h
  rcases h5 : env.populate dup with ⟨d1, perr⟩
  rw [h5] at h
  cases perr with
  | some e =>
    simp at h
    first
    | exact Or.inl h.1
    | exact Or.inl h.1.symm
  | none =>
    cases h6 : env.submit d1 with
    | some e =>
      simp [h6] at h
      first
      | exact Or.inr h.1
      | exact Or.inr h.1.symm
    | none =>
      simp [h6] at h

/-- A confirmation evaluates to false exactly on an explicit "no". -/
theorem confirm_eq_false {ans : Option Bool} (h : confirm ans = false) :
    ans = some false := by
  cases ans with
  | none => simp [confirm] at h
  | some b =>
    cases b with
    | true => simp [confirm] at h
    | false => rfl

/-- When every step up to populate succeeds, the parse phase reaches the
submit call and its value is determined by the submit outcome. -/
theorem parsePhase_submit_eq {Doc : Type} (dup doc d1 : Doc) (env : IterEnv Doc)
    (h2 : env.readErr = none) (h3 : env.restoreErr = none) (h4 : env.rawErr = none)
    (h5 : env.marshalErr = none) (hp : env.populate dup = (d1, none)) :
    (env.submit d1 = none →
      parsePhase dup doc env = (.stop (.ret none d1),
        [.restore, .populateCall dup, .submitCall d1])) ∧
    (∀ s, env.submit d1 = some s →
      parsePhase dup doc env =
        ((if confirm env.submitAns then .next d1 else .stop (.exited 1)),
          [.restore, .populateCall dup, .submitCall d1,
            .prompt "Jira reported an error, edit again?" (confirm env.submitAns)])) := by
  constructor
  · intro hs
    unfold parsePhase
    rw [h2, h3, h4, h5, hp]
    simp [hs]
  · intro s hs
    unfold parsePhase
    rw [h2, h3, h4, h5, hp]
    simp [hs]

/-- If the parse phase raises the exit signal, the code is 1 and one of its
four confirmations was answered with an explicit "no". -/
theorem parsePhase_exit {Doc : Type} (dup doc : Doc) (env : IterEnv Doc) (c : Nat) :
    (parsePhase dup doc env).1 = .stop (.exited c) →
      c = 1 ∧ (env.rawAns = some false ∨ env.marshalAns = some false ∨
        env.populateAns = some false ∨ env.submitAns = some false) := by
  intro h
  unfold parsePhase at h
  cases h1 : env.readErr with
  | some e => rw [h1] at h; simp at h
  | none =>
  rw [h1] at h
  cases h2 : env.restoreErr with
  | some e => rw [h2] at h; simp at h
  | none =>
  rw [h2] at h
  cases h3 : env.rawErr with
  | some e =>
    rw [h3] at h
    cases ha : confirm env.rawAns <;> simp [ha] at h
    exact ⟨by omega, Or.inl (confirm_eq_false ha)⟩
  | none =>
  rw [h3] at h
  cases h4 : env.marshalErr with
  | some e =>
    rw [h4] at h
    cases ha : confirm env.marshalAns <;> simp [ha] at h
    exact ⟨by omega, Or.inr (Or.inl (confirm_eq_false ha))⟩
  | none =>
  rw [h4] at h
  rcases h5 : env.populate dup with ⟨d1, perr⟩
  rw [h5] at h
  cases perr with
  | some e =>
    cases ha : confirm env.populateAns <;> simp [ha] at h
    exact ⟨by omega, Or.inr (Or.inr (Or.inl (confirm_eq_false ha)))⟩
  | none =>
    cases h6 : env.submit d1 with
    | some e =>
      cases ha : confirm env.submitAns <;> simp [h6, ha] at h
      exact ⟨by omega, Or.inr (Or.inr (Or.inr (confirm_eq_false ha)))⟩
    | none =>
      simp [h6] at h

/-- If the parse phase returns normally with no error, the resulting document
is the pristine copy populated without error, the submit callback accepted it,
and it is the only document submit observed in the phase. -/
theorem parsePhase_ret_none {Doc : Type} (dup doc d : Doc) (env : IterEnv Doc) :
    (parsePhase dup doc env).1 = .stop (.ret none d) →
      env.populate dup = (d, none) ∧ env.submit d = none ∧
      submitCalls (parsePhase dup doc env).2 = [d] := by
  intro h
  unfold parsePhase at h
  cases h1 : env.readErr with
  | some e => rw [h1] at h; simp at h
  | none =>
  rw [h1] at h
  cases h2 : env.restoreErr with
  | some e => rw [h2] at h; simp at h
  | none =>
  rw [h2] at h
  cases h3 : env.rawErr with
  | some e =>
    rw [h3] at h
    cases ha : confirm env.rawAns <;> simp [ha] at h
  | none =>
  rw [h3] at h
  cases h4 : env.marshalErr with
  | some e =>
    rw [h4] at h
    cases ha : confirm env.marshalAns <;> simp [ha] at h
  | none =>
  rw [h4] at h
  rcases h5 : env.populate dup with ⟨d1, perr⟩
  rw [h5] at h
  cases perr with
  | some e =>
    cases ha : confirm env.populateAns <;> simp [ha] at h
  | none =>
    cases h6 : env.submit d1 with
    | some e =>
      cases ha : confirm env.submitAns <;> simp [h6, ha] at h
    | none =>
      simp [h6] at h
      subst h
      refine ⟨rfl, h6, ?_⟩
      rw [((parsePhase_submit_eq dup doc d1 env h1 h2 h3 h4 h5).1 h6)]
      simp [submitCalls]

/-- With the skip-editing option set, a loop iteration is exactly the parse
phase: the EDIT phase is bypassed entirely. -/
theorem editIter_skip {Doc : Type} (dup doc : Doc) (env : IterEnv Doc) :
    editIter true dup doc env = parsePhase dup doc env := by
  simp [editIter]

/-- Every populate event of a loop iteration carries the pristine copy. -/
theorem editIter_populateCall {Doc : Type} (skip : Bool) (dup doc d : Doc)
    (env : IterEnv Doc) :
    LoopEv.populateCall d ∈ (editIter skip dup doc env).2 → d = dup := by
  intro h
  cases skip with
  | true =>
    rw [editIter_skip] at h
    exact parsePhase_populateCall dup doc d env h
  | false =>
    unfold editIter at h
    simp only [Bool.false_eq_true, if_false] at h
    cases h1 : env.editErr with
    | some e => rw [h1] at h; simp at h
    | none =>
    rw [h1] at h
    cases h2 : env.editChanges with
    | true =>
      simp [h2] at h
      exact parsePhase_populateCall dup doc d env h
    | false =>
      cases ha : confirm env.submitAnywayAns <;> simp [h2, ha] at h
      exact parsePhase_populateCall dup doc d env h

/-- Every submit event of a loop iteration observes the pristine copy
populated without error by the current attempt. -/
theorem editIter_submitCall {Doc : Type} (skip : Bool) (dup doc d : Doc)
    (env : IterEnv Doc) :
    LoopEv.submitCall d ∈ (editIter skip dup doc env).2 →
      env.populate dup = (d, none) := by
  intro h
  cases skip with
  | true =>
    rw [editIter_skip] at h
    exact parsePhase_submitCall dup doc d env h
  | false =>
    unfold editIter at h
    simp only [Bool.false_eq_true, if_false] at h
    cases h1 : env.editErr with
    | some e => rw [h1] at h; simp at h
    | none =>
    rw [h1] at h
    cases h2 : env.editChanges with
    | true =>
      simp [h2] at h
      exact parsePhase_submitCall dup doc d env h
    | false =>
      cases ha : confirm env.submitAnywayAns <;> simp [h2, ha] at h
      exact parsePhase_submitCall dup doc d env h

/-- A loop iteration never renders the template. -/
theorem editIter_no_render {Doc : Type} (skip : Bool) (dup doc : Doc)
    (env : IterEnv Doc) :
    LoopEv.render ∉ (editIter skip dup doc env).2 := by
  intro h
  cases skip with
  | true =>
    rw [editIter_skip] at h
    exact (parsePhase_no_edit_no_render dup doc env).2 h
  | false =>
    unfold editIter at h
    simp only [Bool.false_eq_true, if_false] at h
    cases h1 : env.editErr with
    | some e => rw [h1] at h; simp at h
    | none =>
    rw [h1] at h
    cases h2 : env.editChanges with
    | true =>
      simp [h2] at h
      exact (parsePhase_no_edit_no_render dup doc env).2 h
    | false =>
      cases ha : confirm env.submitAnywayAns <;> simp [h2, ha] at h
      exact (parsePhase_no_edit_no_render dup doc env).2 h

/-- If a loop iteration raises the exit signal, the code is 1 and some
confirmation of the iteration was answered with an explicit "no". -/
theorem editIter_exit {Doc : Type} (skip : Bool) (dup doc : Doc)
    (env : IterEnv Doc) (c : Nat) :
    (editIter skip dup doc env).1 = .stop (.exited c) → c = 1 ∧ explicitNo env := by
  intro h
  have liftParse : (parsePhase dup doc env).1 = .stop (.exited c) →
      c = 1 ∧ explicitNo env := by
    intro hp
    obtain ⟨hc, hcase⟩ := parsePhase_exit dup doc env c hp
    refine ⟨hc, ?_⟩
    unfold explicitNo
    rcases hcase with hx | hx | hx | hx
    · exact Or.inr (Or.inr (Or.inl hx))
    · exact Or.inr (Or.inr (Or.inr (Or.inl hx)))
    · exact Or.inr (Or.inr (Or.inr (Or.inr (Or.inl hx))))
    · exact Or.inr (Or.inr (Or.inr (Or.inr (Or.inr hx))))
  cases skip with
  | true =>
    rw [editIter_skip] at h
    exact liftParse h
  | false =>
    unfold editIter at h
    simp only [Bool.false_eq_true, if_false] at h
    cases h1 : env.editErr with
    | some e =>
      rw [h1] at h
      cases ha : confirm env.editAgainAns <;> simp [ha] at h
      exact ⟨by omega, Or.inl (confirm_eq_false ha)⟩
    | none =>
    rw [h1] at h
    cases h2 : env.editChanges with
    | true =>
      simp [h2] at h
      exact liftParse h
    | false =>
      cases ha : confirm env.submitAnywayAns <;> simp [h2, ha] at h
      · exact ⟨by omega, Or.inr (Or.inl (confirm_eq_false ha))⟩
      · exact liftParse h

/-- If a loop iteration returns normally with no error, its document is the
pristine copy populated without error, submit accepted it, and it is the only
document submit observed during the iteration. -/
theorem editIter_ret_none {Doc : Type} (skip : Bool) (dup doc d : Doc)
    (env : IterEnv Doc) :
    (editIter skip dup doc env).1 = .stop (.ret none d) →
      env.populate dup = (d, none) ∧ env.submit d = none ∧
      submitCalls (editIter skip dup doc env).2 = [d] := by
  intro h
  cases skip with
  | true =>
    rw [editIter_skip] at h ⊢
    exact parsePhase_ret_none dup doc d env h
  | false =>
    unfold editIter at h
    simp only [Bool.false_eq_true, if_false] at h
    cases h1 : env.editErr with
    | some e =>
      rw [h1] at h
      cases ha : confirm env.editAgainAns <;> simp [ha] at h
    | none =>
    rw [h1] at h
    cases h2 : env.editChanges with
    | true =>
      simp [h2] at h
      obtain ⟨hp, hs, hcalls⟩ := parsePhase_ret_none dup doc d env h
      refine ⟨hp, hs, ?_⟩
      have htr : (editIter false dup doc env).2 =
          LoopEv.editCall :: (parsePhase dup doc env).2 := by
        unfold editIter
        simp [h1, h2]
      rw [htr]
      simpa [submitCalls] using hcalls
    | false =>
      cases ha : confirm env.submitAnywayAns <;> simp [h2, ha] at h
      obtain ⟨hp, hs, hcalls⟩ := parsePhase_ret_none dup doc d env h
      refine ⟨hp, hs, ?_⟩
      have htr : (editIter false dup doc env).2 =
          LoopEv.editCall ::
            LoopEv.prompt "No changes detected, submit anyway?" true ::
              (parsePhase dup doc env).2 := by
        unfold editIter
        simp [h1, h2, ha]
      rw [htr]
      simpa [submitCalls] using hcalls

/-- A clean attempt reaches submit: the iteration's value is decided by the
submit outcome, and submit observes exactly the populated document. -/
theorem editIter_clean_eq {Doc : Type} (skip : Bool) (dup doc d1 : Doc)
    (env : IterEnv Doc) (hc : cleanAttempt skip env)
    (hp : env.populate dup = (d1, none)) :
    (env.submit d1 = none →
      (editIter skip dup doc env).1 = .stop (.ret none d1) ∧
      submitCalls (editIter skip dup doc env).2 = [d1]) ∧
    (∀ s, env.submit d1 = some s → confirm env.submitAns = true →
      (editIter skip dup doc env).1 = .next d1 ∧
      submitCalls (editIter skip dup doc env).2 = [d1]) := by
  obtain ⟨hedit, h2, h3, h4, h5⟩ := hc
  have hpp := parsePhase_submit_eq dup doc d1 env h2 h3 h4 h5 hp
  cases skip with
  | true =>
    rw [editIter_skip]
    constructor
    · intro hs
      rw [hpp.1 hs]
      simp [submitCalls]
    · intro s hs ha
      rw [hpp.2 s hs]
      simp [ha, submitCalls]
  | false =>
    obtain ⟨he, hch⟩ := hedit rfl
    unfold editIter
    simp only [Bool.false_eq_true, if_false, he, hch, if_true]
    constructor
    · intro hs
      rw [hpp.1 hs]
      simp [submitCalls]
    · intro s hs ha
      rw [hpp.2 s hs]
      simp [ha, submitCalls]

/-- An unchanged file whose submit-anyway confirmation is answered with an
explicit "no" raises the exit signal with code 1, and submit is not called. -/
theorem editIter_nochanges_no {Doc : Type} (dup doc : Doc) (env : IterEnv Doc)
    (he : env.editErr = none) (hch : env.editChanges = false)
    (ha : env.submitAnywayAns = some false) :
    editIter false dup doc env = (.stop (.exited 1),
      [.editCall, .prompt "No changes detected, submit anyway?" false]) := by
  unfold editIter
  simp [he, hch, ha, confirm]

/-- Any per-event property that holds for the events of every iteration holds
for the events of the whole retry loop. -/
theorem editLoopGo_events {Doc : Type} (P : LoopEv Doc → Prop) (skip : Bool)
    (dup : Doc)
    (hIter : ∀ doc env ev, ev ∈ (editIter skip dup doc env).2 → P ev) :
    ∀ (envs : List (IterEnv Doc)) (doc : Doc) (ev : LoopEv Doc),
      ev ∈ (editLoopGo skip dup doc envs).2 → P ev := by
  intro envs
  induction envs with
  | nil =>
    intro doc ev h
    simp [editLoopGo] at h
  | cons env rest ih =>
    intro doc ev h
    rw [editLoopGo] at h
    rcases hit : editIter skip dup doc env with ⟨step, tr⟩
    rw [hit] at h
    cases step with
    | stop o =>
      simp at h
      exact hIter doc env ev (by rw [hit]; exact h)
    | next dnext =>
      simp at h
      rcases h with h | h
      · exact hIter doc env ev (by rw [hit]; exact h)
      · exact ih dnext ev h

/-- Every submit event of the retry loop observes the pristine copy populated
without error by one of the iteration environments. -/
theorem editLoopGo_submitCall {Doc : Type} (skip : Bool) (dup : Doc) :
    ∀ (envs : List (IterEnv Doc)) (doc d : Doc),
      LoopEv.submitCall d ∈ (editLoopGo skip dup doc envs).2 →
      ∃ env ∈ envs, env.populate dup = (d, none) := by
  intro envs
  induction envs with
  | nil =>
    intro doc d h
    simp [editLoopGo] at h
  | cons env rest ih =>
    intro doc d h
    rw [editLoopGo] at h
    rcases hit : editIter skip dup doc env with ⟨step, tr⟩
    rw [hit] at h
    cases step with
    | stop o =>
      simp at h
      exact ⟨env, by simp, editIter_submitCall skip dup doc d env (by rw [hit]; exact h)⟩
    | next dnext =>
      simp at h
      rcases h with h | h
      · exact ⟨env, by simp, editIter_submitCall skip dup doc d env (by rw [hit]; exact h)⟩
      · obtain ⟨e, he, hp⟩ := ih dnext d h
        exact ⟨e, by simp [he], hp⟩

/-- If the retry loop raises the exit signal, the code is 1 and some
confirmation of one of its iterations was answered with an explicit "no". -/
theorem editLoopGo_exit {Doc : Type} (skip : Bool) (dup : Doc) :
    ∀ (envs : List (IterEnv Doc)) (doc : Doc) (c : Nat),
      (editLoopGo skip dup doc envs).1 = .exited c →
      c = 1 ∧ ∃ env ∈ envs, explicitNo env := by
  intro envs
  induction envs with
  | nil =>
    intro doc c h
    simp [editLoopGo] at h
  | cons env rest ih =>
    intro doc c h
    rw [editLoopGo] at h
    rcases hit : editIter skip dup doc env with ⟨step, tr⟩
    rw [hit] at h
    cases step with
    | stop o =>
      simp at h
      subst h
      obtain ⟨hc, hno⟩ := editIter_exit skip dup doc env c (by rw [hit])
      exact ⟨hc, env, by simp, hno⟩
    | next dnext =>
      simp at h
      obtain ⟨hc, e, he, hno⟩ := ih dnext c h
      exact ⟨hc, e, by simp [he], hno⟩

/-- The lists of submitted documents of consecutive trace segments
concatenate. -/
theorem submitCalls_append {Doc : Type} (tr1 tr2 : List (LoopEv Doc)) :
    submitCalls (tr1 ++ tr2) = submitCalls tr1 ++ submitCalls tr2 := by
  unfold submitCalls
  exact List.filterMap_append tr1 tr2 _

/-- If the retry loop returns normally with no error, the final document is
the pristine copy populated without error by one of the iteration
environments, that environment's submit accepted it, and it is the last
document submit observed. -/
theorem editLoopGo_ret_none {Doc : Type} (skip : Bool) (dup : Doc) :
    ∀ (envs : List (IterEnv Doc)) (doc d : Doc),
      (editLoopGo skip dup doc envs).1 = .ret none d →
      (submitCalls (editLoopGo skip dup doc envs).2).getLast? = some d ∧
      ∃ env ∈ envs, env.populate dup = (d, none) ∧ env.submit d = none := by
  intro envs
  induction envs with
  | nil =>
    intro doc d h
    simp [editLoopGo] at h
  | cons env rest ih =>
    intro doc d h
    rw [editLoopGo] at h ⊢
    rcases hit : editIter skip dup doc env with ⟨step, tr⟩
    rw [hit] at h
    cases step with
    | stop o =>
      simp at h ⊢
      subst h
      obtain ⟨hp, hs, hcalls⟩ := editIter_ret_none skip dup doc d env (by rw [hit])
      rw [hit] at hcalls
      simp at hcalls
      refine ⟨?_, Or.inl ⟨hp, hs⟩⟩
      rw [hcalls]
      rfl
    | next dnext =>
      simp at h ⊢
      obtain ⟨hlast, e, he, hp, hs⟩ := ih dnext d h
      refine ⟨?_, Or.inr ⟨e, he, hp, hs⟩⟩
      rw [submitCalls_append]
      rw [List.getLast?_append_of_ne_nil]
      · exact hlast
      · intro hnil
        rw [hnil] at hlast
        cases hlast

/-- The retry loop never renders the template. -/
theorem editLoopGo_no_render {Doc : Type} (skip : Bool) (dup : Doc)
    (envs : List (IterEnv Doc)) (doc : Doc) :
    ∀ ev ∈ (editLoopGo skip dup doc envs).2, ev ≠ LoopEv.render :=
  fun ev hev =>
    editLoopGo_events (fun e => e ≠ LoopEv.render) skip dup
      (fun doc2 env ev2 h2 heq => editIter_no_render skip dup doc2 env (heq ▸ h2))
      envs doc ev hev

/-- Every populate event of the retry loop carries the pristine copy. -/
theorem editLoopGo_populateCall {Doc : Type} (skip : Bool) (dup : Doc)
    (envs : List (IterEnv Doc)) (doc d : Doc) :
    LoopEv.populateCall d ∈ (editLoopGo skip dup doc envs).2 → d = dup := by
  intro h
  exact editLoopGo_events (fun ev => ∀ x, ev = LoopEv.populateCall x → x = dup)
    skip dup
    (fun doc2 env ev hev x hx => editIter_populateCall skip dup doc2 x env (hx ▸ hev))
    envs doc _ h d rfl

/-- A trace with no render event has render count zero. -/
theorem renderCount_eq_zero {Doc : Type} :
    ∀ (tr : List (LoopEv Doc)), (∀ ev ∈ tr, ev ≠ LoopEv.render) →
      renderCount tr = 0 := by
  intro tr
  induction tr with
  | nil => intro _; rfl
  | cons ev rest ih =>
    intro h
    have hev : isRender ev = false := by
      have hne := h ev (by simp)
      cases ev <;> simp [isRender] at hne ⊢
    unfold renderCount at ih ⊢
    rw [List.filter_cons, hev]
    simp only [Bool.false_eq_true, if_false]
    exact ih (fun e he => h e (by simp [he]))

/-- A leading render event adds one to the render count. -/
theorem renderCount_cons_render {Doc : Type} (tr : List (LoopEv Doc)) :
    renderCount (LoopEv.render :: tr) = renderCount tr + 1 := by
  simp [renderCount, List.filter_cons, isRender]

/-- Every event of an `EditLoop` run is the initial render or an event of the
retry loop. -/
theorem EditLoop_trace {Doc : Type} (setup : LoopSetup) (opts : CommonOptions)
    (output : Doc) (envs : List (IterEnv Doc)) (ev : LoopEv Doc)
    (h : ev ∈ (EditLoop setup opts output envs).2) :
    ev = LoopEv.render ∨
    ev ∈ (editLoopGo opts.skipEditing output output envs).2 := by
  unfold EditLoop at h
  cases h1 : setup.renderErr with
  | some e => rw [h1] at h; simp at h
  | none =>
  rw [h1] at h
  cases h2 : setup.snapErr with
  | some e =>
    rw [h2] at h
    simp at h
    exact Or.inl h
  | none =>
    rw [h2] at h
    simp at h
    exact h

/-- C1: before every POPULATE step of every iteration, the Document equals the
pristine copy taken once at loop entry, and every document the submit callback
observes is the pristine copy fully populated, without error, by one of the
attempts — never a leftover of a previous failed attempt. -/
theorem restore_invariant {Doc : Type} (setup : LoopSetup) (opts : CommonOptions)
    (output : Doc) (envs : List (IterEnv Doc)) :
    (∀ d, LoopEv.populateCall d ∈ (EditLoop setup opts output envs).2 →
      d = output) ∧
    (∀ d, LoopEv.submitCall d ∈ (EditLoop setup opts output envs).2 →
      ∃ env ∈ envs, env.populate output = (d, none)) := by
  constructor
  · intro d h
    rcases EditLoop_trace setup opts output envs _ h with h | h
    · simp at h
    · exact editLoopGo_populateCall opts.skipEditing output envs output d h
  · intro d h
    rcases EditLoop_trace setup opts output envs _ h with h | h
    · simp at h
    · exact editLoopGo_submitCall opts.skipEditing output envs output d h

/-- Witness for `restore_invariant` on a concrete one-iteration run over
natural-number documents: the populate event carries the snapshot 0 and the
submitted document 7 is the snapshot populated by the attempt. -/
theorem restore_invariant_witness :
    (0 : Nat) = 0 ∧
    ∃ env ∈ ([⟨true, none, none, none, none, none, none, none, none, none,
        fun d => (d + 7, none), none, fun _ => none, none⟩] : List (IterEnv Nat)),
      env.populate 0 = (7, none) :=
  ⟨(restore_invariant ⟨none, none⟩ ⟨"", true, "t"⟩ (0 : Nat)
      [⟨true, none, none, none, none, none, none, none, none, none,
        fun d => (d + 7, none), none, fun _ => none, none⟩]).1 0
      (by simp [EditLoop, editLoopGo, editIter, parsePhase]),
   (restore_invariant ⟨none, none⟩ ⟨"", true, "t"⟩ (0 : Nat)
      [⟨true, none, none, none, none, none, none, none, none, none,
        fun d => (d + 7, none), none, fun _ => none, none⟩]).2 7
      (by simp [EditLoop, editLoopGo, editIter, parsePhase])⟩

/-- C6: the initial render happens at most once per run and never inside the
loop; whenever the loop terminates normally with a nil error, the final
Document is the last value submit observed and that submit returned nil; and a
run whose first two submits fail, each retry confirmed, and whose third submit
succeeds terminates normally with the third attempt's document after exactly
three submit calls. -/
theorem submit_retry_loop {Doc : Type} (setup : LoopSetup) (opts : CommonOptions)
    (output : Doc) :
    (∀ envs : List (IterEnv Doc),
      renderCount (EditLoop setup opts output envs).2 ≤ 1) ∧
    (∀ (envs : List (IterEnv Doc)) (d : Doc),
      (EditLoop setup opts output envs).1 = .ret none d →
      (submitCalls (EditLoop setup opts output envs).2).getLast? = some d ∧
      ∃ env ∈ envs, env.populate output = (d, none) ∧ env.submit d = none) ∧
    (∀ (e1 e2 e3 : IterEnv Doc) (d1 d2 d3 : Doc) (s1 s2 : String),
      setup.renderErr = none → setup.snapErr = none →
      cleanAttempt opts.skipEditing e1 → cleanAttempt opts.skipEditing e2 →
      cleanAttempt opts.skipEditing e3 →
      e1.populate output = (d1, none) → e2.populate output = (d2, none) →
      e3.populate output = (d3, none) →
      e1.submit d1 = some s1 → confirm e1.submitAns = true →
      e2.submit d2 = some s2 → confirm e2.submitAns = true →
      e3.submit d3 = none →
      (EditLoop setup opts output [e1, e2, e3]).1 = .ret none d3 ∧
      submitCalls (EditLoop setup opts output [e1, e2, e3]).2 = [d1, d2, d3]) := by
  refine ⟨?_, ?_, ?_⟩
  · intro envs
    unfold EditLoop
    cases h1 : setup.renderErr with
    | some e => simp [renderCount]
    | none =>
    cases h2 : setup.snapErr with
    | some e => simp [renderCount, List.filter_cons, isRender]
    | none =>
      have hzero := renderCount_eq_zero _
        (editLoopGo_no_render opts.skipEditing output envs output)
      simp only []
      rw [renderCount_cons_render, hzero]
  · intro envs d h
    unfold EditLoop at h ⊢
    cases h1 : setup.renderErr with
    | some e => rw [h1] at h; simp at h
    | none =>
    rw [h1] at h
    cases h2 : setup.snapErr with
    | some e => rw [h2] at h; simp at h
    | none =>
    rw [h2] at h
    simp at h
    obtain ⟨hlast, henv⟩ :=
      editLoopGo_ret_none opts.skipEditing output envs output d h
    constructor
    · simpa [submitCalls] using hlast
    · exact henv
  · intro e1 e2 e3 d1 d2 d3 s1 s2 hr hsnap hc1 hc2 hc3 hp1 hp2 hp3 hs1 ha1 hs2
      ha2 hs3
    have i1 := (editIter_clean_eq opts.skipEditing output output d1 e1 hc1 hp1).2
      s1 hs1 ha1
    have i2 := (editIter_clean_eq opts.skipEditing output d1 d2 e2 hc2 hp2).2
      s2 hs2 ha2
    have i3 := (editIter_clean_eq opts.skipEditing output d2 d3 e3 hc3 hp3).1 hs3
    rcases hit1 : editIter opts.skipEditing output output e1 with ⟨step1, tr1⟩
    rw [hit1] at i1
    simp at i1
    rcases hit2 : editIter opts.skipEditing output d1 e2 with ⟨step2, tr2⟩
    rw [hit2] at i2
    simp at i2
    rcases hit3 : editIter opts.skipEditing output d2 e3 with ⟨step3, tr3⟩
    rw [hit3] at i3
    simp at i3
    have g3 : editLoopGo opts.skipEditing output d2 [e3] = (.ret none d3, tr3) := by
      rw [editLoopGo, hit3, i3.1]
    have g2 : editLoopGo opts.skipEditing output d1 [e2, e3] =
        (.ret none d3, tr2 ++ tr3) := by
      rw [editLoopGo, hit2, i2.1]
      simp [g3]
    have g1 : editLoopGo opts.skipEditing output output [e1, e2, e3] =
        (.ret none d3, tr1 ++ (tr2 ++ tr3)) := by
      rw [editLoopGo, hit1, i1.1]
      simp [g2]
    have hE1 : (EditLoop setup opts output [e1, e2, e3]).1 =
        (editLoopGo opts.skipEditing output output [e1, e2, e3]).1 := by
      unfold EditLoop
      rw [hr, hsnap]
    have hE2 : (EditLoop setup opts output [e1, e2, e3]).2 =
        LoopEv.render :: (editLoopGo opts.skipEditing output output [e1, e2, e3]).2 := by
      unfold EditLoop
      rw [hr, hsnap]
    constructor
    · rw [hE1, g1]
    · rw [hE2, g1]
      have hcons : submitCalls (LoopEv.render :: (tr1 ++ (tr2 ++ tr3))) =
          submitCalls (tr1 ++ (tr2 ++ tr3)) := by
        simp [submitCalls]
      rw [hcons, submitCalls_append, submitCalls_append, i1.2, i2.2, i3.2]
      rfl

/-- Witness for `submit_retry_loop`: over natural-number documents, a run with
two failed submits, both retries confirmed, and a third accepted submit ends
normally holding the third attempt's document after three submit calls. -/
theorem submit_retry_loop_witness :
    (EditLoop ⟨none, none⟩ ⟨"", true, "t"⟩ (0 : Nat)
      [⟨true, none, none, none, none, none, none, none, none, none,
          fun _ => (1, none), none, fun _ => some "err1", some true⟩,
        ⟨true, none, none, none, none, none, none, none, none, none,
          fun _ => (2, none), none, fun _ => some "err2", some true⟩,
        ⟨true, none, none, none, none, none, none, none, none, none,
          fun _ => (3, none), none, fun _ => none, none⟩]).1 = .ret none 3 ∧
    submitCalls (EditLoop ⟨none, none⟩ ⟨"", true, "t"⟩ (0 : Nat)
      [⟨true, none, none, none, none, none, none, none, none, none,
          fun _ => (1, none), none, fun _ => some "err1", some true⟩,
        ⟨true, none, none, none, none, none, none, none, none, none,
          fun _ => (2, none), none, fun _ => some "err2", some true⟩,
        ⟨true, none, none, none, none, none, none, none, none, none,
          fun _ => (3, none), none, fun _ => none, none⟩]).2 = [1, 2, 3] :=
  (submit_retry_loop ⟨none, none⟩ ⟨"", true, "t"⟩ (0 : Nat)).2.2
    ⟨true, none, none, none, none, none, none, none, none, none,
      fun _ => (1, none), none, fun _ => some "err1", some true⟩
    ⟨true, none, none, none, none, none, none, none, none, none,
      fun _ => (2, none), none, fun _ => some "err2", some true⟩
    ⟨true, none, none, none, none, none, none, none, none, none,
      fun _ => (3, none), none, fun _ => none, none⟩
    1 2 3 "err1" "err2" rfl rfl
    (by simp [cleanAttempt]) (by simp [cleanAttempt]) (by simp [cleanAttempt])
    rfl rfl rfl rfl rfl rfl rfl rfl

/-- C7: a confirmation with no explicit answer evaluates to the default "yes";
the exit signal can only be raised with code 1 and only after some
confirmation was answered with an explicit "no"; and an unedited file whose
submit-anyway confirmation is answered "no" raises the exit signal with code 1
with the submit callback never invoked. -/
theorem confirm_default_abort {Doc : Type} (setup : LoopSetup)
    (opts : CommonOptions) (output : Doc) :
    confirm none = true ∧
    (∀ (envs : List (IterEnv Doc)) (c : Nat),
      (EditLoop setup opts output envs).1 = .exited c →
      c = 1 ∧ ∃ env ∈ envs, explicitNo env) ∧
    (∀ env : IterEnv Doc, opts.skipEditing = false → setup.renderErr = none →
      setup.snapErr = none → env.editErr = none → env.editChanges = false →
      env.submitAnywayAns = some false →
      (EditLoop setup opts output [env]).1 = .exited 1 ∧
      ∀ d, LoopEv.submitCall d ∉ (EditLoop setup opts output [env]).2) := by
  refine ⟨rfl, ?_, ?_⟩
  · intro envs c h
    unfold EditLoop at h
    cases h1 : setup.renderErr with
    | some e => rw [h1] at h; simp at h
    | none =>
    rw [h1] at h
    cases h2 : setup.snapErr with
    | some e => rw [h2] at h; simp at h
    | none =>
    rw [h2] at h
    simp at h
    exact editLoopGo_exit opts.skipEditing output envs output c h
  · intro env hskip hr hsnap he hch ha
    have hi := editIter_nochanges_no output output env he hch ha
    have hgo : editLoopGo false output output [env] =
        (.exited 1, [.editCall,
          .prompt "No changes detected, submit anyway?" false]) := by
      rw [editLoopGo, hi]
    have hE : EditLoop setup opts output [env] =
        (.exited 1, [.render, .editCall,
          .prompt "No changes detected, submit anyway?" false]) := by
      unfold EditLoop
      rw [hr, hsnap, hskip, hgo]
    rw [hE]
    constructor
    · rfl
    · intro d
      simp

/-- Witness for `confirm_default_abort`: a concrete unedited run answered "no"
raises the exit signal, carries an explicit "no", and submit is never
called. -/
theorem confirm_default_abort_witness :
    (1 = 1 ∧ ∃ env ∈ ([⟨false, none, none, some false, none, none, none, none,
        none, none, fun d => (d, none), none, fun _ => none, none⟩] :
          List (IterEnv Nat)), explicitNo env) ∧
    ((EditLoop ⟨none, none⟩ ⟨"", false, "t"⟩ (0 : Nat)
        [⟨false, none, none, some false, none, none, none, none, none, none,
          fun d => (d, none), none, fun _ => none, none⟩]).1 = .exited 1 ∧
      ∀ d, LoopEv.submitCall d ∉ (EditLoop ⟨none, none⟩ ⟨"", false, "t"⟩ (0 : Nat)
        [⟨false, none, none, some false, none, none, none, none, none, none,
          fun d => (d, none), none, fun _ => none, none⟩]).2) :=
  ⟨(confirm_default_abort ⟨none, none⟩ ⟨"", false, "t"⟩ (0 : Nat)).2.1
      [⟨false, none, none, some false, none, none, none, none, none, none,
        fun d => (d, none), none, fun _ => none, none⟩] 1
      (by simp [EditLoop, editLoopGo, editIter, parsePhase, confirm]),
   (confirm_default_abort ⟨none, none⟩ ⟨"", false, "t"⟩ (0 : Nat)).2.2
      ⟨false, none, none, some false, none, none, none, none, none, none,
        fun d => (d, none), none, fun _ => none, none⟩
      rfl rfl rfl rfl rfl rfl⟩

/-- C10: with the skip-editing option set, `editFile` returns no changes and
no error without touching the filesystem, and an `EditLoop` run never calls
the editor and never shows the editor-failure or the submit-anyway
confirmation: it proceeds from the render directly to parsing. -/
theorem skip_editing_spec {Doc : Type} (o : CommonOptions) (fenv : EditFileEnv)
    (fileName : String) (setup : LoopSetup) (output : Doc)
    (envs : List (IterEnv Doc)) (hskip : o.skipEditing = true) :
    editFile o fenv fileName = ((false, none), []) ∧
    LoopEv.editCall ∉ (EditLoop setup o output envs).2 ∧
    (∀ a, LoopEv.prompt "Editor reported an error, edit again?" a ∉
      (EditLoop setup o output envs).2) ∧
    (∀ a, LoopEv.prompt "No changes detected, submit anyway?" a ∉
      (EditLoop setup o output envs).2) := by
  have hIter : ∀ (doc2 : Doc) (env : IterEnv Doc) (ev : LoopEv Doc),
      ev ∈ (editIter o.skipEditing output doc2 env).2 →
      ev ≠ LoopEv.editCall ∧
      (∀ a, ev ≠ LoopEv.prompt "Editor reported an error, edit again?" a) ∧
      (∀ a, ev ≠ LoopEv.prompt "No changes detected, submit anyway?" a) := by
    intro doc2 env ev hev
    rw [hskip, editIter_skip] at hev
    refine ⟨?_, ?_, ?_⟩
    · intro heq
      subst heq
      exact (parsePhase_no_edit_no_render output doc2 env).1 hev
    · intro a heq
      subst heq
      rcases parsePhase_prompt output doc2 env _ a hev with hm | hm <;> simp at hm
    · intro a heq
      subst heq
      rcases parsePhase_prompt output doc2 env _ a hev with hm | hm <;> simp at hm
  refine ⟨by simp [editFile, hskip], ?_, ?_, ?_⟩
  · intro hev
    rcases EditLoop_trace setup o output envs _ hev with h | h
    · simp at h
    · exact (editLoopGo_events _ o.skipEditing output hIter envs output _ h).1 rfl
  · intro a hev
    rcases EditLoop_trace setup o output envs _ hev with h | h
    · simp at h
    · exact (editLoopGo_events _ o.skipEditing output hIter envs output _ h).2.1 a rfl
  · intro a hev
    rcases EditLoop_trace setup o output envs _ hev with h | h
    · simp at h
    · exact (editLoopGo_events _ o.skipEditing output hIter envs output _ h).2.2 a rfl

/-- Witness for `skip_editing_spec` at a concrete skip-editing run. -/
theorem skip_editing_spec_witness :
    editFile ⟨"vi", true, "t"⟩ ⟨"", "", none, none, none, none, none, none,
        [], []⟩ "f.yml" = ((false, none), []) ∧
    LoopEv.editCall ∉ (EditLoop ⟨none, none⟩ ⟨"vi", true, "t"⟩ (0 : Nat) []).2 ∧
    (∀ a, LoopEv.prompt "Editor reported an error, edit again?" a ∉
      (EditLoop ⟨none, none⟩ ⟨"vi", true, "t"⟩ (0 : Nat) []).2) ∧
    (∀ a, LoopEv.prompt "No changes detected, submit anyway?" a ∉
      (EditLoop ⟨none, none⟩ ⟨"vi", true, "t"⟩ (0 : Nat) []).2) :=
  skip_editing_spec ⟨"vi", true, "t"⟩ ⟨"", "", none, none, none, none, none,
    none, [], []⟩ "f.yml" ⟨none, none⟩ (0 : Nat) [] rfl

end JiraCli
